import Mathlib

/-!
Shallow embedding of the PolyMarketBOT trading engine
(src/src-tauri/src/trading/engine.rs and models.rs).

Modelling conventions:
* Rust `f64` fields are modelled as `ℚ` (the cycle engine performs only
  field arithmetic on them; decimal rendering of floats is abstracted by
  `fmtQ`, on which no claim depends).
* Rust `u32`/`u64` counters are `Nat`; the saturating `as u32` cast is
  `ratToU32`.
* `Utc::now()` is threaded in as a `Nat` (seconds) parameter `now`.
* The two network collaborators (Polymarket market fetch, Claude
  prediction) are inputs to `run_cycle`: the fetch result and a
  per-market-index prediction result.
* Rust panics (the `&s[..max_len]` slice in `truncate_str` on a non-char
  boundary, the `.unwrap()` on `activity_log.last()`) are modelled by
  `Option`: `none` means the call panicked.
* `f64::sqrt` is modelled by the approximation `ratSqrt`; no claim in this
  development depends on its value, only on its sign behaviour.
-/

/-- `ActivityType` from models.rs. -/
inductive ActivityType where
  | Info
  | Edge
  | Order
  | Resolved
  | Warning
  | Error
  | Inference
deriving DecidableEq, Repr

/-- `ActivityEntry` from models.rs. -/
structure ActivityEntry where
  timestamp : String
  message : String
  entry_type : ActivityType
deriving DecidableEq, Repr

/-- `OrderSide` from models.rs. -/
inductive OrderSide where
  | Buy
  | Sell
deriving DecidableEq, Repr

/-- `OrderStatus` from models.rs. -/
inductive OrderStatus where
  | Pending
  | Filled
  | Resolved
  | Cancelled
  | Failed
deriving DecidableEq, Repr

/-- `Order` from models.rs. -/
structure Order where
  id : String
  market_id : String
  market_name : String
  side : OrderSide
  outcome : String
  price : ℚ
  size : ℚ
  status : OrderStatus
  created_at : String
  resolved_at : Option String
  pnl : Option ℚ
deriving DecidableEq, Repr

/-- `BalancePoint` from models.rs. -/
structure BalancePoint where
  timestamp : String
  balance : ℚ
  label : String
deriving DecidableEq, Repr

/-- `BotStats` from models.rs.  (Field `sharpe_ratio` keeps the source
name; it is accessed in qualified form below.) -/
structure BotStats where
  current_balance : ℚ
  initial_balance : ℚ
  total_pnl : ℚ
  total_pnl_pct : String
  api_costs : ℚ
  win_rate : ℚ
  wins : Nat
  losses : Nat
  total_trades : Nat
  markets_scanned : Nat
  avg_bet : ℚ
  best_trade : ℚ
  worst_trade : ℚ
  sharpe_ratio : ℚ
  avg_edge : ℚ
  daily_api_cost : ℚ
  runway_days : Nat
  uptime : String
  cycle : Nat
  pid : Nat
deriving DecidableEq, Repr

/-- `BotConfig` from models.rs. -/
structure BotConfig where
  polymarket_api_key : String
  polymarket_secret : String
  polymarket_passphrase : String
  claude_api_key : String
  claude_model : String
  initial_balance : ℚ
  max_bet_size : ℚ
  min_edge_threshold : ℚ
  max_concurrent_orders : Nat
  scan_interval_secs : Nat
  auto_trading : Bool
  survival_mode : Bool
deriving DecidableEq, Repr

/-- `BotConfig::default()` from models.rs. -/
def BotConfig.default : BotConfig where
  polymarket_api_key := ""
  polymarket_secret := ""
  polymarket_passphrase := ""
  claude_api_key := ""
  claude_model := "claude-sonnet-4-20250514"
  initial_balance := 50
  max_bet_size := 200
  min_edge_threshold := 3/10
  max_concurrent_orders := 5
  scan_interval_secs := 60
  auto_trading := false
  survival_mode := true

/-- `Market` from models.rs.  `question` is a Lean `String`; its UTF-8
byte sequence (what Rust's `&str` slicing operates on) is `utf8Bytes`. -/
structure Market where
  id : String
  question : String
  slug : String
  outcomes : List String
  outcome_prices : List ℚ
  volume : ℚ
  liquidity : ℚ
  end_date : Option String
  active : Bool
deriving DecidableEq, Repr

/-- `AIPrediction` from models.rs. -/
structure AIPrediction where
  market_id : String
  market_name : String
  predicted_outcome : String
  confidence : ℚ
  edge : ℚ
  reasoning : String
  recommended_size : ℚ
  fair_price : ℚ
deriving DecidableEq, Repr

/-- The state of `ClaudeClient` that the engine observes (claude.rs):
credentials plus the cumulative token counters behind `estimate_cost`. -/
structure ClaudeClient where
  api_key : String
  model : String
  total_input_tokens : Nat
  total_output_tokens : Nat
deriving DecidableEq, Repr

/-- The engine-visible state of `PolymarketClient` (polymarket.rs):
just the stored credentials. -/
structure PolymarketClient where
  api_key : String
  api_secret : String
  passphrase : String
deriving DecidableEq, Repr

/-- `TradingEngine` from engine.rs. -/
structure TradingEngine where
  polymarket : Option PolymarketClient
  claude : Option ClaudeClient
  config : BotConfig
  stats : BotStats
  orders : List Order
  activity_log : List ActivityEntry
  balance_history : List BalancePoint
  is_running : Bool
  start_time : Option Nat
deriving DecidableEq, Repr

/-! ## Numeric and formatting helpers -/

/-- Truncation of a rational toward zero (Rust `f64` → integer cast
direction for in-range values). -/
def ratTrunc (x : ℚ) : Int :=
  if 0 ≤ x then ⌊x⌋ else ⌈x⌉

/-- Rust's saturating `as u32` cast from a (finite) float: negative
values clamp to 0, values above `u32::MAX` clamp to `u32::MAX`,
otherwise truncate toward zero. -/
def ratToU32 (x : ℚ) : Nat :=
  if x < 0 then 0 else min (Int.toNat ⌊x⌋) 4294967295

/-- Rust `x % 1.0` on `f64`: remainder with the sign of the dividend,
i.e. `x - trunc x`. -/
def rustRem1 (x : ℚ) : ℚ :=
  x - (ratTrunc x : ℚ)

/-- Approximation of `f64::sqrt` on rationals.  It is exact enough for
this development: no claim depends on the value, and it is positive on
positive inputs and zero on non-positive inputs, like the real square
root on the values arising here. -/
def ratSqrt (x : ℚ) : ℚ :=
  if x ≤ 0 then 0 else ((Nat.sqrt (Int.toNat x.num * x.den) : ℚ) / (x.den : ℚ))

/-- Two-digit zero padding, Rust's `{:02}`. -/
def pad2 (n : Nat) : String :=
  if n < 10 then "0" ++ toString n else toString n

/-- chrono's `%H:%M:%S` of a wall-clock instant given in seconds. -/
def fmtClock (now : Nat) : String :=
  pad2 (now / 3600 % 24) ++ ":" ++ pad2 (now / 60 % 60) ++ ":" ++ pad2 (now % 60)

/-- The `{:02}:{:02}:{:02}` uptime rendering of an elapsed duration in
seconds (hours are not reduced modulo 24). -/
def fmtUptime (elapsed : Nat) : String :=
  pad2 (elapsed / 3600) ++ ":" ++ pad2 (elapsed / 60 % 60) ++ ":" ++ pad2 (elapsed % 60)

/-- Abstract rendering of an `f64` value in a log message.  Rust renders
floats in decimal (`{:.2}` etc.); the exact digits are irrelevant to
every claim, so a rational is rendered as `num/den`. -/
def fmtQ (q : ℚ) : String :=
  toString q.num ++ "/" ++ toString q.den

/-! ## UTF-8 byte model for `truncate_str` -/

/-- Standard UTF-8 encoding of one scalar value, as byte values. -/
def encodeChar (c : Char) : List Nat :=
  let n := c.toNat
  if n < 128 then [n]
  else if n < 2048 then [192 + n / 64, 128 + n % 64]
  else if n < 65536 then [224 + n / 4096, 128 + n / 64 % 64, 128 + n % 64]
  else [240 + n / 262144, 128 + n / 4096 % 64, 128 + n / 64 % 64, 128 + n % 64]

/-- The UTF-8 byte sequence of a string — what Rust's `str::len` and
byte-index slicing see. -/
def utf8Bytes (s : String) : List Nat :=
  s.data.flatMap encodeChar

/-- Rust `str::is_char_boundary` at an in-range byte index: true iff the
byte there is not a UTF-8 continuation byte. -/
def isCharBoundary (bs : List Nat) (i : Nat) : Bool :=
  match bs.get? i with
  | none => true
  | some b => decide (b < 128 ∨ 192 ≤ b)

/-- `truncate_str` from engine.rs.  Slicing `&s[..max_len]` panics when
`max_len` falls inside a multi-byte character; the panic is `none`.
The result is the byte sequence of the produced `String`. -/
def truncate_str (s : String) (maxLen : Nat) : Option (List Nat) :=
  let bs := utf8Bytes s
  if bs.length ≤ maxLen then some bs
  else if isCharBoundary bs maxLen then some (bs.take maxLen ++ [46, 46, 46])
  else none

/-- Rendering of a truncated byte sequence inside a log message
(rendering abstraction, like `fmtQ`). -/
def bytesRender (bs : List Nat) : String :=
  String.intercalate "," (bs.map toString)

/-! ## Engine operations -/

/-- The bounded-append pattern of engine.rs: push, then if the length
exceeds `cap`, `split_off(len - cap)` keeps the last `cap` entries. -/
def pushCapped (cap : Nat) (l : List α) (a : α) : List α :=
  let l2 := l ++ [a]
  if l2.length > cap then l2.drop (l2.length - cap) else l2

/-- The `ActivityEntry` built by `TradingEngine::add_activity`. -/
def mkEntry (now : Nat) (message : String) (ty : ActivityType) : ActivityEntry :=
  { timestamp := "[" ++ fmtClock now ++ "]", message := message, entry_type := ty }

/-- `TradingEngine::add_activity`: push an entry, keep the last 500. -/
def addActivity (now : Nat) (e : TradingEngine) (message : String) (ty : ActivityType) :
    TradingEngine :=
  { e with activity_log := pushCapped 500 e.activity_log (mkEntry now message ty) }

/-- `TradingEngine::new` (pid is process-dependent, `now` is the wall
clock at construction). -/
def TradingEngine.new (pid now : Nat) : TradingEngine :=
  let config := BotConfig.default
  { polymarket := none
    claude := none
    config := config
    stats :=
      { current_balance := config.initial_balance
        initial_balance := config.initial_balance
        total_pnl := 0
        total_pnl_pct := "+0%"
        api_costs := 0
        win_rate := 0
        wins := 0
        losses := 0
        total_trades := 0
        markets_scanned := 0
        avg_bet := 0
        best_trade := 0
        worst_trade := 0
        sharpe_ratio := 0
        avg_edge := 0
        daily_api_cost := 0
        runway_days := 0
        uptime := "00:00:00"
        cycle := 0
        pid := pid }
    orders := []
    activity_log := []
    balance_history := [{ timestamp := fmtClock now, balance := config.initial_balance, label := "0h" }]
    is_running := false
    start_time := none }

/-- `TradingEngine::configure`: rebuild both clients from the new
credentials, replace the config, log an Info entry. -/
def configure (now : Nat) (e : TradingEngine) (config : BotConfig) : TradingEngine :=
  let e :=
    { e with
      polymarket := some
        { api_key := config.polymarket_api_key
          api_secret := config.polymarket_secret
          passphrase := config.polymarket_passphrase }
      claude := some
        { api_key := config.claude_api_key
          model := config.claude_model
          total_input_tokens := 0
          total_output_tokens := 0 }
      config := config }
  addActivity now e "Configuration updated successfully" ActivityType.Info

/-- `TradingEngine::start`: unconditionally set the running flag, record
the current instant, log an Info entry. -/
def start (now : Nat) (e : TradingEngine) : TradingEngine :=
  let e := { e with is_running := true, start_time := some now }
  addActivity now e "🟢 Bot started - Survival Mode active" ActivityType.Info

/-- `TradingEngine::stop`. -/
def stop (now : Nat) (e : TradingEngine) : TradingEngine :=
  let e := { e with is_running := false }
  addActivity now e "🔴 Bot stopped" ActivityType.Warning

/-- `ClaudeClient::estimate_cost`: $3/M input tokens, $15/M output. -/
def estimate_cost (cl : ClaudeClient) : ℚ :=
  (cl.total_input_tokens : ℚ) / 1000000 * 3 + (cl.total_output_tokens : ℚ) / 1000000 * 15

/-- `TradingEngine::simulate_order` (the fresh UUID is the input `oid`). -/
def simulate_order (oid : String) (now : Nat) (_e : TradingEngine) (market : Market)
    (prediction : AIPrediction) (size : ℚ) : Order :=
  { id := oid
    market_id := market.id
    market_name := market.question
    side := OrderSide.Buy
    outcome := prediction.predicted_outcome
    price := prediction.fair_price
    size := size
    status := OrderStatus.Filled
    created_at := fmtClock now
    resolved_at := none
    pnl := none }

/-- The per-order body of `TradingEngine::resolve_pending_orders`,
folded over the ledger: threads the pseudo-random seed and the engine
(whose stats and activity log the body mutates), and rebuilds the order
list in place. -/
def resolveLoop (now : Nat) : List Order → TradingEngine → ℚ →
    List Order × TradingEngine × ℚ
  | [], e, seed => ([], e, seed)
  | o :: rest, e, seed =>
    if o.status = OrderStatus.Filled then
      let seed2 := rustRem1 (seed * (11/10) + 3/10)
      let won := seed2 > 7/20
      let pnl := if won then o.size * (1 / o.price - 1) * (3/10) else -o.size * (7/10)
      let o2 := { o with pnl := some pnl, status := OrderStatus.Resolved,
                         resolved_at := some (fmtClock now) }
      let st := e.stats
      let st := { st with current_balance := st.current_balance + pnl,
                          total_trades := st.total_trades + 1 }
      let st :=
        if pnl > 0 then
          { st with wins := st.wins + 1,
                    best_trade := if pnl > st.best_trade then pnl else st.best_trade }
        else
          { st with losses := st.losses + 1,
                    worst_trade := if pnl < st.worst_trade then pnl else st.worst_trade }
      let msg := "RESOLVED " ++ (if pnl ≥ 0 then "+" else "") ++ "$" ++ fmtQ pnl
      let e2 := addActivity now { e with stats := st } msg
        (if pnl ≥ 0 then ActivityType.Resolved else ActivityType.Warning)
      let r := resolveLoop now rest e2 seed2
      (o2 :: r.1, r.2)
    else
      let r := resolveLoop now rest e seed
      (o :: r.1, r.2)

/-- `TradingEngine::resolve_pending_orders`: resolve every `Filled`
order (seed starts at the cycle counter), then keep the last 50 ledger
entries. -/
def resolve_pending_orders (now : Nat) (e : TradingEngine) : TradingEngine :=
  let r := resolveLoop now e.orders e ((e.stats.cycle : ℚ))
  let e2 := { r.2.1 with orders := r.1 }
  { e2 with orders :=
      if e2.orders.length > 50 then e2.orders.drop (e2.orders.length - 50) else e2.orders }

/-- `TradingEngine::update_stats`: full recomputation of the derived
statistics from the ledger and counters. -/
def update_stats (e : TradingEngine) : TradingEngine :=
  let st : BotStats := e.stats
  let st : BotStats := { st with total_pnl := st.current_balance - st.initial_balance }
  -- the local `pnl_pct` of the source is computed and then unused
  let _pnl_pct : ℚ :=
    if st.initial_balance > 0 then st.total_pnl / st.initial_balance * 100 else 0
  let st : BotStats := { st with total_pnl_pct :=
      (if st.total_pnl ≥ 0 then "+" else "") ++ "$" ++ fmtQ (st.total_pnl / 1000) ++ "k" }
  let st : BotStats :=
    if st.total_trades > 0 then
      let total_bet : ℚ :=
        ((e.orders.filter fun o => o.status = OrderStatus.Resolved).map Order.size).sum
      { st with
        win_rate := (st.wins : ℚ) / (st.total_trades : ℚ) * 100
        avg_bet := if st.total_trades > 0 then total_bet / (st.total_trades : ℚ) else 0 }
    else st
  let st : BotStats :=
    if st.total_trades > 1 then
      let returns := e.orders.filterMap Order.pnl
      let mean := returns.sum / (returns.length : ℚ)
      let variance := ((returns.map fun r => (r - mean) ^ 2).sum) / (returns.length : ℚ)
      let std_dev := ratSqrt variance
      { st with sharpe_ratio :=
          if std_dev > 0 then mean / std_dev * ratSqrt 252 else 0 }
    else st
  let st : BotStats :=
    if st.daily_api_cost > 0 then
      { st with runway_days := ratToU32 (st.current_balance / st.daily_api_cost) }
    else
      { st with runway_days := 9999 }
  let st : BotStats := { st with daily_api_cost := st.api_costs }
  { e with stats := st }

/-! ## The cycle orchestrator -/

/-- The external inputs consumed by one `run_cycle` invocation: the wall
clock, the result of `PolymarketClient::get_markets(100, 0)`, the result
of `ClaudeClient::analyze_market` for the i-th analyzed market (a
prediction together with the usage tokens reported by the API), and the
fresh UUID drawn for an order created at the i-th market. -/
structure CycleInput where
  now : Nat
  fetch : Except String (List Market)
  preds : Nat → Except Unit (AIPrediction × Nat × Nat)
  orderIds : Nat → String

/-- The market-analysis loop of `run_cycle` (`for market in
markets.iter().take(10)`), carrying the market index `i`, the engine and
the delta list.  `none` models a panic (from `truncate_str`, or from the
`unwrap` on `activity_log.last()`). -/
def analyzeLoop (inp : CycleInput) :
    List Market → Nat → TradingEngine → List ActivityEntry →
    Option (TradingEngine × List ActivityEntry)
  | [], _, e, delta => some (e, delta)
  | market :: rest, i, e, delta =>
    match e.claude with
    | none => analyzeLoop inp rest (i + 1) e delta
    | some cl =>
      match inp.preds i with
      | Except.error _ =>
        let e2 := addActivity inp.now e "Inference: -$0.002" ActivityType.Inference
        match e2.activity_log.getLast? with
        | none => none
        | some a => analyzeLoop inp rest (i + 1) e2 (delta ++ [a])
      | Except.ok (prediction, tin, tout) =>
        let cl2 := { cl with total_input_tokens := cl.total_input_tokens + tin,
                             total_output_tokens := cl.total_output_tokens + tout }
        let e2 := { e with claude := some cl2,
                           stats := { e.stats with api_costs := estimate_cost cl2 } }
        if prediction.edge ≥ e2.config.min_edge_threshold then
          match truncate_str market.question 40 with
          | none => none
          | some tq =>
            let edge_msg := "Edge: \"" ++ bytesRender tq ++ "\" > $" ++
              fmtQ (prediction.recommended_size * e2.stats.current_balance) ++
              " @ " ++ fmtQ prediction.edge
            let e3 := addActivity inp.now e2 edge_msg ActivityType.Edge
            match e3.activity_log.getLast? with
            | none => none
            | some a =>
              let delta2 := delta ++ [a]
              let order_size :=
                min (prediction.recommended_size * e3.stats.current_balance)
                  e3.config.max_bet_size
              if order_size > 1 ∧ e3.config.auto_trading then
                let order := simulate_order (inp.orderIds i) inp.now e3 market prediction
                  order_size
                match truncate_str market.question 40 with
                | none => none
                | some tq2 =>
                  let order_msg := "ORDER $" ++ fmtQ order_size ++ " → \"" ++
                    bytesRender tq2 ++ "\""
                  let e4 := addActivity inp.now e3 order_msg ActivityType.Order
                  match e4.activity_log.getLast? with
                  | none => none
                  | some a2 =>
                    let e5 := { e4 with orders := e4.orders ++ [order] }
                    analyzeLoop inp rest (i + 1) e5 (delta2 ++ [a2])
              else analyzeLoop inp rest (i + 1) e3 delta2
        else analyzeLoop inp rest (i + 1) e2 delta

/-- The uptime recomputation at the top of `run_cycle` (`if let
Some(start) = self.start_time`). -/
def uptimeUpdate (now : Nat) (e : TradingEngine) : TradingEngine :=
  match e.start_time with
  | some s => { e with stats := { e.stats with uptime := fmtUptime (now - s) } }
  | none => e

/-- `TradingEngine::run_cycle`.  Returns `none` on a panic, otherwise
the post-cycle engine and the activity delta. -/
def run_cycle (inp : CycleInput) (e : TradingEngine) :
    Option (TradingEngine × List ActivityEntry) :=
  let delta : List ActivityEntry := []
  if !e.is_running then some (e, delta)
  else
    let e := { e with stats := { e.stats with cycle := e.stats.cycle + 1 } }
    let e := uptimeUpdate inp.now e
    match e.polymarket with
    | none => some (e, delta)
    | some _ =>
      let e2 := addActivity inp.now e
        ("Scanning markets... Cycle #" ++ toString e.stats.cycle) ActivityType.Info
      match e2.activity_log.getLast? with
      | none => none
      | some a1 =>
        let delta := delta ++ [a1]
        match inp.fetch with
        | Except.error err =>
          let e3 := addActivity inp.now e2 ("Error fetching markets: " ++ err)
            ActivityType.Error
          match e3.activity_log.getLast? with
          | none => none
          | some a2 => some (e3, delta ++ [a2])
        | Except.ok markets =>
          let e3 := { e2 with stats :=
            { e2.stats with markets_scanned := e2.stats.markets_scanned + markets.length } }
          let e4 := addActivity inp.now e3
            ("Processing " ++ toString markets.length ++ " markets...") ActivityType.Info
          match e4.activity_log.getLast? with
          | none => none
          | some a2 =>
            let delta := delta ++ [a2]
            match analyzeLoop inp (markets.take 10) 0 e4 delta with
            | none => none
            | some (e5, delta2) =>
              let e6 := resolve_pending_orders inp.now e5
              let e7 := { e6 with balance_history := e6.balance_history ++
                [{ timestamp := fmtClock inp.now
                   balance := e6.stats.current_balance
                   label := toString e6.balance_history.length ++ "h" }] }
              let e8 := update_stats e7
              some (e8, delta2)

theorem pushCapped_getLast? {α : Type} (cap : Nat) (hcap : 0 < cap) (l : List α) (a : α) :
    (pushCapped cap l a).getLast? = some a := by
  simp only [pushCapped]
  split
  · have hk : (l ++ [a]).length - cap ≤ l.length := by
      simp only [List.length_append, List.length_singleton]
      omega
    rw [List.drop_append_eq_append_drop, Nat.sub_eq_zero_of_le hk, List.drop_zero,
      List.getLast?_concat]
  · exact List.getLast?_concat l

theorem foldl_pushCapped {α : Type} (cap : Nat) (hcap : 0 < cap) (xs : List α) :
    List.foldl (pushCapped cap) [] xs = xs.drop (xs.length - cap) := by
  induction xs using List.reverseRecOn with
  | nil => simp
  | append_singleton xs a ih =>
    rw [List.foldl_append, ih]
    simp only [List.foldl_cons, List.foldl_nil]
    by_cases h : xs.length < cap
    · have h0 : xs.length - cap = 0 := by omega
      have h1 : (xs ++ [a]).length - cap = 0 := by
        simp only [List.length_append, List.length_singleton]; omega
      rw [h0, h1, List.drop_zero, List.drop_zero]
      simp only [pushCapped]
      split
      · rename_i hlen
        simp only [List.length_append, List.length_singleton] at hlen
        omega
      · rfl
    · have hd : (xs.drop (xs.length - cap)).length = cap := by
        rw [List.length_drop]; omega
      simp only [pushCapped]
      split
      · have hlen1 : (List.drop (xs.length - cap) xs ++ [a]).length - cap = 1 := by
          simp only [List.length_append, List.length_singleton, hd]
          omega
        rw [hlen1, List.drop_append_eq_append_drop, List.drop_drop,
          List.drop_append_eq_append_drop]
        have e1 : 1 - (List.drop (xs.length - cap) xs).length = 0 := by omega
        have e2 : (xs ++ [a]).length - cap - xs.length = 0 := by
          simp only [List.length_append, List.length_singleton]; omega
        have e3 : xs.length - cap + 1 = (xs ++ [a]).length - cap := by
          simp only [List.length_append, List.length_singleton]; omega
        rw [e1, e2, e3]
      · rename_i hlen
        simp only [List.length_append, List.length_singleton, hd] at hlen
        omega

theorem addActivity_getLast? (now : Nat) (e : TradingEngine) (m : String) (ty : ActivityType) :
    (addActivity now e m ty).activity_log.getLast? = some (mkEntry now m ty) :=
  pushCapped_getLast? 500 (by norm_num) _ _

theorem addActivity_log (now : Nat) (e : TradingEngine) (m : String) (ty : ActivityType) :
    (addActivity now e m ty).activity_log =
      pushCapped 500 e.activity_log (mkEntry now m ty) := rfl

/-- A sequence of `add_activity` calls, as the engine performs them. -/
def applyActivities (e : TradingEngine) (xs : List (Nat × String × ActivityType)) :
    TradingEngine :=
  xs.foldl (fun acc x => addActivity x.1 acc x.2.1 x.2.2) e

theorem applyActivities_log (xs : List (Nat × String × ActivityType)) :
    ∀ e : TradingEngine,
      (applyActivities e xs).activity_log =
        List.foldl (pushCapped 500) e.activity_log
          (xs.map fun x => mkEntry x.1 x.2.1 x.2.2) := by
  induction xs with
  | nil => intro e; rfl
  | cons x xs ih =>
    intro e
    simp only [applyActivities, List.foldl_cons, List.map_cons] at *
    exact ih (addActivity x.1 e x.2.1 x.2.2)

/-- C3: starting from an empty activity log, after N appends the log is
exactly the last min(N, 500) appended entries in original order. -/
theorem add_activity_bounded (e : TradingEngine)
    (xs : List (Nat × String × ActivityType)) (h : e.activity_log = []) :
    (applyActivities e xs).activity_log =
      (xs.map fun x => mkEntry x.1 x.2.1 x.2.2).drop (xs.length - 500) ∧
    (applyActivities e xs).activity_log.length = min xs.length 500 := by
  have hlog := applyActivities_log xs e
  rw [h, foldl_pushCapped 500 (by norm_num), List.length_map] at hlog
  refine ⟨hlog, ?_⟩
  rw [hlog, List.length_drop, List.length_map]
  omega

theorem add_activity_bounded_witness :
    (TradingEngine.new 0 0).activity_log = [] ∧
    ((applyActivities (TradingEngine.new 0 0) [(5, "hello", ActivityType.Info)]).activity_log =
        ([(5, "hello", ActivityType.Info)].map fun x => mkEntry x.1 x.2.1 x.2.2).drop
          ([((5 : Nat), "hello", ActivityType.Info)].length - 500) ∧
      (applyActivities (TradingEngine.new 0 0)
          [(5, "hello", ActivityType.Info)]).activity_log.length =
        min [((5 : Nat), "hello", ActivityType.Info)].length 500) :=
  ⟨rfl, add_activity_bounded _ _ rfl⟩

/-- C7 amended: `start()` always sets the running flag, records the
current instant as the start time, and emits one Info entry — also when
the engine is already running (the start time is re-armed on every
call); all other engine fields are unchanged. -/
theorem start_behaviour (now : Nat) (e : TradingEngine) :
    (start now e).is_running = true ∧
    (start now e).start_time = some now ∧
    (start now e).activity_log =
      pushCapped 500 e.activity_log
        (mkEntry now "🟢 Bot started - Survival Mode active" ActivityType.Info) ∧
    (start now e).stats = e.stats ∧
    (start now e).orders = e.orders ∧
    (start now e).balance_history = e.balance_history ∧
    (start now e).config = e.config :=
  ⟨rfl, rfl, rfl, rfl, rfl, rfl, rfl⟩

def engRunning : TradingEngine :=
  { TradingEngine.new 0 0 with is_running := true, start_time := some 5 }

/-- C7 counterexample: on an engine that is already running with
recorded start time 5, `start` at instant 10 re-arms the start time. -/
theorem start_rearm_counterexample :
    engRunning.is_running = true ∧
    (start 10 engRunning).start_time ≠ engRunning.start_time := by
  with_unfolding_all decide

/-- C2: `run_cycle` on an idle engine returns an empty delta and the
engine completely unchanged. -/
theorem run_cycle_idle_noop (inp : CycleInput) (e : TradingEngine)
    (h : e.is_running = false) : run_cycle inp e = some (e, []) := by
  simp [run_cycle, h]

def inpTrivial : CycleInput :=
  { now := 0, fetch := Except.error "down", preds := fun _ => Except.error (),
    orderIds := fun _ => "" }

theorem run_cycle_idle_noop_witness :
    (TradingEngine.new 0 0).is_running = false ∧
    run_cycle inpTrivial (TradingEngine.new 0 0) = some (TradingEngine.new 0 0, []) :=
  ⟨rfl, run_cycle_idle_noop inpTrivial _ rfl⟩

/-- C9 amended: `runway_days` is computed from the value
`daily_api_cost` had BEFORE the recomputation (the previous cycle's
mirror of `api_costs`): the saturating-cast truncation of
`current_balance` over that stale value when it is positive, else the
sentinel 9999; only afterwards is `daily_api_cost` overwritten with the
cumulative `api_costs`. -/
theorem runway_uses_stale_daily_cost (e : TradingEngine) :
    (update_stats e).stats.runway_days =
      (if e.stats.daily_api_cost > 0 then
        ratToU32 (e.stats.current_balance / e.stats.daily_api_cost) else 9999) ∧
    (update_stats e).stats.daily_api_cost = e.stats.api_costs ∧
    (update_stats e).stats.current_balance = e.stats.current_balance := by
  simp only [update_stats]
  repeat' split
  all_goals simp_all

def engStale : TradingEngine :=
  { TradingEngine.new 0 0 with stats :=
    { (TradingEngine.new 0 0).stats with
        daily_api_cost := 2, api_costs := 5, current_balance := 100 } }

/-- C9 counterexample: with pre-cycle `daily_api_cost = 2`,
`api_costs = 5`, `current_balance = 100`, the recomputation sets
`runway_days = 50` but the post-recomputation `daily_api_cost` is 5, and
100 / 5 truncates to 20 ≠ 50. -/
theorem runway_counterexample :
    (update_stats engStale).stats.daily_api_cost > 0 ∧
    (update_stats engStale).stats.runway_days ≠
      ratToU32 ((update_stats engStale).stats.current_balance /
        (update_stats engStale).stats.daily_api_cost) := by
  with_unfolding_all decide

def marketPanic : Market :=
  { id := "m1", question := String.mk (List.replicate 39 'a' ++ ['é']), slug := "s",
    outcomes := ["Yes", "No"], outcome_prices := [1/2, 1/2], volume := 0, liquidity := 0,
    end_date := none, active := true }

def predEdge : AIPrediction :=
  { market_id := "m1", market_name := "q", predicted_outcome := "Yes", confidence := 1/2,
    edge := 1, reasoning := "r", recommended_size := 1/1000, fair_price := 1/2 }

def engPanic : TradingEngine :=
  { TradingEngine.new 0 0 with
      is_running := true
      polymarket := some { api_key := "", api_secret := "", passphrase := "" }
      claude := some { api_key := "", model := "m", total_input_tokens := 0,
                       total_output_tokens := 0 } }

def inpPanic : CycleInput :=
  { now := 0, fetch := Except.ok [marketPanic],
    preds := fun _ => Except.ok (predEdge, 1, 1), orderIds := fun _ => "oid" }

/-- C10: a 41-byte UTF-8 question whose 40th byte is a continuation
byte makes the edge-logging step's `truncate_str` slice panic, so
`run_cycle` panics (returns `none` in the model). -/
theorem run_cycle_panics_on_multibyte_question :
    40 < (utf8Bytes marketPanic.question).length ∧
    truncate_str marketPanic.question 40 = none ∧
    run_cycle inpPanic engPanic = none := by
  with_unfolding_all decide

theorem resolveLoop_length (now : Nat) (os : List Order) :
    ∀ (e : TradingEngine) (seed : ℚ), (resolveLoop now os e seed).1.length = os.length := by
  induction os with
  | nil => intro e seed; rfl
  | cons o rest ih =>
    intro e seed
    simp only [resolveLoop]
    split
    · simp only [List.length_cons, ih]
    · simp only [List.length_cons, ih]

theorem resolve_pending_orders_length (now : Nat) (e : TradingEngine) :
    (resolve_pending_orders now e).orders.length ≤ 50 := by
  simp only [resolve_pending_orders]
  split
  · rename_i h
    simp only [List.length_drop]
    omega
  · rename_i h
    simp only [not_lt] at h
    omega

theorem update_stats_orders (e : TradingEngine) : (update_stats e).orders = e.orders := rfl


@[simp] theorem uptimeUpdate_polymarket (now : Nat) (e : TradingEngine) :
    (uptimeUpdate now e).polymarket = e.polymarket := by
  unfold uptimeUpdate; split <;> rfl

@[simp] theorem uptimeUpdate_claude (now : Nat) (e : TradingEngine) :
    (uptimeUpdate now e).claude = e.claude := by
  unfold uptimeUpdate; split <;> rfl

@[simp] theorem uptimeUpdate_orders (now : Nat) (e : TradingEngine) :
    (uptimeUpdate now e).orders = e.orders := by
  unfold uptimeUpdate; split <;> rfl

@[simp] theorem uptimeUpdate_activity_log (now : Nat) (e : TradingEngine) :
    (uptimeUpdate now e).activity_log = e.activity_log := by
  unfold uptimeUpdate; split <;> rfl

@[simp] theorem uptimeUpdate_balance_history (now : Nat) (e : TradingEngine) :
    (uptimeUpdate now e).balance_history = e.balance_history := by
  unfold uptimeUpdate; split <;> rfl

@[simp] theorem uptimeUpdate_is_running (now : Nat) (e : TradingEngine) :
    (uptimeUpdate now e).is_running = e.is_running := by
  unfold uptimeUpdate; split <;> rfl

@[simp] theorem uptimeUpdate_config (now : Nat) (e : TradingEngine) :
    (uptimeUpdate now e).config = e.config := by
  unfold uptimeUpdate; split <;> rfl

@[simp] theorem uptimeUpdate_wins (now : Nat) (e : TradingEngine) :
    (uptimeUpdate now e).stats.wins = e.stats.wins := by
  unfold uptimeUpdate; split <;> rfl

@[simp] theorem uptimeUpdate_losses (now : Nat) (e : TradingEngine) :
    (uptimeUpdate now e).stats.losses = e.stats.losses := by
  unfold uptimeUpdate; split <;> rfl

@[simp] theorem uptimeUpdate_total_trades (now : Nat) (e : TradingEngine) :
    (uptimeUpdate now e).stats.total_trades = e.stats.total_trades := by
  unfold uptimeUpdate; split <;> rfl

@[simp] theorem uptimeUpdate_current_balance (now : Nat) (e : TradingEngine) :
    (uptimeUpdate now e).stats.current_balance = e.stats.current_balance := by
  unfold uptimeUpdate; split <;> rfl

@[simp] theorem uptimeUpdate_cycle (now : Nat) (e : TradingEngine) :
    (uptimeUpdate now e).stats.cycle = e.stats.cycle := by
  unfold uptimeUpdate; split <;> rfl

@[simp] theorem addActivity_orders (now : Nat) (e : TradingEngine) (m : String)
    (ty : ActivityType) : (addActivity now e m ty).orders = e.orders := rfl

@[simp] theorem addActivity_stats (now : Nat) (e : TradingEngine) (m : String)
    (ty : ActivityType) : (addActivity now e m ty).stats = e.stats := rfl

@[simp] theorem addActivity_is_running (now : Nat) (e : TradingEngine) (m : String)
    (ty : ActivityType) : (addActivity now e m ty).is_running = e.is_running := rfl

@[simp] theorem addActivity_claude (now : Nat) (e : TradingEngine) (m : String)
    (ty : ActivityType) : (addActivity now e m ty).claude = e.claude := rfl

@[simp] theorem addActivity_polymarket (now : Nat) (e : TradingEngine) (m : String)
    (ty : ActivityType) : (addActivity now e m ty).polymarket = e.polymarket := rfl

@[simp] theorem addActivity_config (now : Nat) (e : TradingEngine) (m : String)
    (ty : ActivityType) : (addActivity now e m ty).config = e.config := rfl

@[simp] theorem addActivity_balance_history (now : Nat) (e : TradingEngine) (m : String)
    (ty : ActivityType) : (addActivity now e m ty).balance_history = e.balance_history := rfl

theorem run_cycle_orders_bound (inp : CycleInput) (e e' : TradingEngine)
    (d : List ActivityEntry) (h50 : e.orders.length ≤ 50)
    (h : run_cycle inp e = some (e', d)) : e'.orders.length ≤ 50 := by
  have leaf : ∀ X : TradingEngine, ∀ dd : List ActivityEntry,
      some (X, dd) = some (e', d) → X.orders.length ≤ 50 → e'.orders.length ≤ 50 := by
    intro X dd hx hb
    simp only [Option.some.injEq, Prod.mk.injEq] at hx
    obtain ⟨h1, h2⟩ := hx
    subst h1
    exact hb
  simp only [run_cycle, uptimeUpdate_polymarket] at h
  split at h
  · exact leaf _ _ h h50
  · split at h
    · refine leaf _ _ h ?_
      simp only [uptimeUpdate_orders]
      exact h50
    · split at h <;> rename_i hlast
      · rw [addActivity_getLast?] at hlast
        cases hlast
      · split at h
        · split at h <;> rename_i hlast2
          · rw [addActivity_getLast?] at hlast2
            cases hlast2
          · refine leaf _ _ h ?_
            simp only [addActivity_orders, uptimeUpdate_orders]
            exact h50
        · split at h <;> rename_i hlast2
          · rw [addActivity_getLast?] at hlast2
            cases hlast2
          · split at h
            · cases h
            · rename_i e5 d5 hloop
              refine leaf _ _ h ?_
              rw [update_stats_orders]
              exact resolve_pending_orders_length inp.now e5

def pcTest : PolymarketClient := { api_key := "", api_secret := "", passphrase := "" }

def clTest : ClaudeClient :=
  { api_key := "", model := "m", total_input_tokens := 0, total_output_tokens := 0 }

def mktTest (q : String) : Market :=
  { id := "m1", question := q, slug := "s", outcomes := ["Yes", "No"],
    outcome_prices := [1/2, 1/2], volume := 0, liquidity := 0, end_date := none,
    active := true }

/-- A prediction with a clear edge and a small recommended size. -/
def predTest : AIPrediction :=
  { market_id := "m1", market_name := "q", predicted_outcome := "Yes", confidence := 1/2,
    edge := 1, reasoning := "r", recommended_size := 1/1000, fair_price := 1/2 }

/-- An auto-trading engine with a large balance, so that every analyzed
market yields an order. -/
def engAuto : TradingEngine :=
  { TradingEngine.new 0 0 with
      is_running := true
      polymarket := some pcTest
      claude := some clTest
      config := { BotConfig.default with auto_trading := true, min_edge_threshold := 0 }
      stats := { (TradingEngine.new 0 0).stats with current_balance := 10000 } }

/-- Cycle input number `c` of the 60-order scenario: ten markets, every
prediction succeeds, order ids are globally sequential (`10 c + i + 1`
for the i-th market of cycle `c`). -/
def inpSeq (c : Nat) : CycleInput :=
  { now := 0, fetch := Except.ok ((List.range 10).map fun i => mktTest ("Q" ++ toString i)),
    preds := fun _ => Except.ok (predTest, 1, 1),
    orderIds := fun i => toString (10 * c + i + 1) }

/-- Chained cycles, discarding the deltas. -/
def runCycles : List CycleInput → TradingEngine → Option TradingEngine
  | [], e => some e
  | inp :: rest, e =>
    match run_cycle inp e with
    | none => none
    | some r => runCycles rest r.1

set_option maxRecDepth 20000 in
/-- C4: after every completed `run_cycle` the order ledger has length at
most 50 (given the pre-cycle ledger was within the cap, which holds for
every reachable state); and in the concrete 6-cycle scenario appending
60 orders with sequential ids, the final ledger is exactly orders 11–60
in their original append order (oldest evicted first). -/
theorem order_ledger_bounded (inp : CycleInput) (e e' : TradingEngine)
    (d : List ActivityEntry) (h50 : e.orders.length ≤ 50)
    (h : run_cycle inp e = some (e', d)) :
    e'.orders.length ≤ 50 ∧
    (runCycles ((List.range 6).map inpSeq) engAuto).map
        (fun ef => ef.orders.map Order.id) =
      some ((List.range' 11 50).map toString) := by
  refine ⟨run_cycle_orders_bound inp e e' d h50 h, ?_⟩
  with_unfolding_all decide

theorem order_ledger_bounded_witness :
    (TradingEngine.new 0 0).orders.length ≤ 50 ∧
    run_cycle inpTrivial (TradingEngine.new 0 0) = some (TradingEngine.new 0 0, []) ∧
    ((TradingEngine.new 0 0).orders.length ≤ 50 ∧
      (runCycles ((List.range 6).map inpSeq) engAuto).map
          (fun ef => ef.orders.map Order.id) =
        some ((List.range' 11 50).map toString)) :=
  ⟨by decide, by with_unfolding_all decide,
    order_ledger_bounded inpTrivial (TradingEngine.new 0 0) (TradingEngine.new 0 0) []
      (by decide) (by with_unfolding_all decide)⟩

/-- C6: on a running, configured engine whose market fetch fails,
`run_cycle` returns early with a two-entry delta — the scan Info line
and exactly one Error entry describing the failure — and leaves
`current_balance`, the order ledger and the running flag unchanged. -/
theorem fetch_error_aborts_cycle (inp : CycleInput) (e : TradingEngine)
    (pc : PolymarketClient) (err : String) (hrun : e.is_running = true)
    (hpm : e.polymarket = some pc) (hf : inp.fetch = Except.error err) :
    ∃ e' a1 a2, run_cycle inp e = some (e', [a1, a2]) ∧
      a1.entry_type = ActivityType.Info ∧
      a2.entry_type = ActivityType.Error ∧
      a2.message = "Error fetching markets: " ++ err ∧
      ([a1, a2].filter fun a => a.entry_type = ActivityType.Error).length = 1 ∧
      e'.activity_log = pushCapped 500 (pushCapped 500 e.activity_log a1) a2 ∧
      e'.stats.current_balance = e.stats.current_balance ∧
      e'.orders = e.orders ∧
      e'.is_running = true := by
  simp only [run_cycle, uptimeUpdate_polymarket, hrun, hpm, hf, Bool.not_true,
    Bool.false_eq_true, if_false, addActivity_getLast?, List.nil_append]
  refine ⟨_, _, _, rfl, rfl, rfl, rfl, ?_, ?_, ?_, ?_, ?_⟩
  · simp [mkEntry]
  · simp only [addActivity_log, uptimeUpdate_activity_log]
  · simp only [addActivity_stats, uptimeUpdate_current_balance]
  · simp only [addActivity_orders, uptimeUpdate_orders]
  · simp only [addActivity_is_running, uptimeUpdate_is_running]

def engFetch : TradingEngine :=
  { TradingEngine.new 0 0 with is_running := true, polymarket := some pcTest }

theorem fetch_error_aborts_cycle_witness :
    engFetch.is_running = true ∧ engFetch.polymarket = some pcTest ∧
    inpTrivial.fetch = Except.error "down" ∧
    (∃ e' a1 a2, run_cycle inpTrivial engFetch = some (e', [a1, a2]) ∧
      a1.entry_type = ActivityType.Info ∧
      a2.entry_type = ActivityType.Error ∧
      a2.message = "Error fetching markets: " ++ "down" ∧
      ([a1, a2].filter fun a => a.entry_type = ActivityType.Error).length = 1 ∧
      e'.activity_log = pushCapped 500 (pushCapped 500 engFetch.activity_log a1) a2 ∧
      e'.stats.current_balance = engFetch.stats.current_balance ∧
      e'.orders = engFetch.orders ∧
      e'.is_running = true) :=
  ⟨rfl, rfl, rfl, fetch_error_aborts_cycle inpTrivial engFetch pcTest "down" rfl rfl rfl⟩

/-- The C5 invariant: the trade counter splits into wins and losses. -/
def tradesInv (e : TradingEngine) : Prop :=
  e.stats.total_trades = e.stats.wins + e.stats.losses

theorem resolveLoop_trades_inv (now : Nat) (os : List Order) :
    ∀ (e : TradingEngine) (seed : ℚ), tradesInv e →
      tradesInv (resolveLoop now os e seed).2.1 := by
  induction os with
  | nil => intro e seed h; exact h
  | cons o rest ih =>
    intro e seed h
    simp only [resolveLoop]
    split
    · apply ih
      unfold tradesInv at *
      simp only [addActivity_stats]
      repeat' split
      all_goals simp only [Nat.add_right_comm]
      all_goals omega
    · exact ih e seed h

theorem resolve_pending_orders_inv (now : Nat) (e : TradingEngine)
    (h : tradesInv e) : tradesInv (resolve_pending_orders now e) :=
  resolveLoop_trades_inv now e.orders e _ h

theorem update_stats_counters (e : TradingEngine) :
    (update_stats e).stats.total_trades = e.stats.total_trades ∧
    (update_stats e).stats.wins = e.stats.wins ∧
    (update_stats e).stats.losses = e.stats.losses := by
  simp only [update_stats]
  repeat' split
  all_goals exact ⟨rfl, rfl, rfl⟩

theorem analyzeLoop_counters (inp : CycleInput) (ms : List Market) :
    ∀ (i : Nat) (e : TradingEngine) (delta : List ActivityEntry)
      (r : TradingEngine × List ActivityEntry), analyzeLoop inp ms i e delta = some r →
      r.1.stats.total_trades = e.stats.total_trades ∧
      r.1.stats.wins = e.stats.wins ∧ r.1.stats.losses = e.stats.losses := by
  induction ms with
  | nil =>
    intro i e delta r h
    cases h
    exact ⟨rfl, rfl, rfl⟩
  | cons m rest ih =>
    intro i e delta r h
    simp only [analyzeLoop] at h
    split at h
    · exact ih _ _ _ _ h
    · split at h
      · split at h
        · cases h
        · simpa using ih _ _ _ _ h
      · split at h
        · split at h
          · cases h
          · split at h
            · cases h
            · split at h
              · split at h
                · cases h
                · split at h
                  · cases h
                  · simpa using ih _ _ _ _ h
              · simpa using ih _ _ _ _ h
        · simpa using ih _ _ _ _ h

theorem run_cycle_trades_inv (inp : CycleInput) (e e' : TradingEngine)
    (d : List ActivityEntry) (hInv : tradesInv e)
    (h : run_cycle inp e = some (e', d)) : tradesInv e' := by
  have leaf : ∀ (X : TradingEngine) (dd : List ActivityEntry),
      some (X, dd) = some (e', d) → tradesInv X → tradesInv e' := by
    intro X dd hx hb
    simp only [Option.some.injEq, Prod.mk.injEq] at hx
    obtain ⟨h1, h2⟩ := hx
    subst h1
    exact hb
  simp only [run_cycle, uptimeUpdate_polymarket] at h
  split at h
  · exact leaf _ _ h hInv
  · split at h
    · refine leaf _ _ h ?_
      unfold tradesInv
      simp only [uptimeUpdate_total_trades, uptimeUpdate_wins, uptimeUpdate_losses]
      exact hInv
    · split at h <;> rename_i hlast
      · rw [addActivity_getLast?] at hlast
        cases hlast
      · split at h
        · split at h <;> rename_i hlast2
          · rw [addActivity_getLast?] at hlast2
            cases hlast2
          · refine leaf _ _ h ?_
            unfold tradesInv
            simp only [addActivity_stats, uptimeUpdate_total_trades, uptimeUpdate_wins,
              uptimeUpdate_losses]
            exact hInv
        · split at h <;> rename_i hlast2
          · rw [addActivity_getLast?] at hlast2
            cases hlast2
          · split at h
            · cases h
            · rename_i e5 d5 hloop
              refine leaf _ _ h ?_
              obtain ⟨ht, hw, hl⟩ := update_stats_counters
                { resolve_pending_orders inp.now e5 with
                  balance_history := (resolve_pending_orders inp.now e5).balance_history ++
                    [{ timestamp := fmtClock inp.now
                       balance := (resolve_pending_orders inp.now e5).stats.current_balance
                       label := toString (resolve_pending_orders inp.now e5).balance_history.length
                         ++ "h" }] }
              unfold tradesInv
              rw [ht, hw, hl]
              have hI5 : tradesInv e5 := by
                obtain ⟨ht5, hw5, hl5⟩ := analyzeLoop_counters inp _ _ _ _ _ hloop
                unfold tradesInv
                rw [ht5, hw5, hl5]
                simp only [addActivity_stats, uptimeUpdate_total_trades, uptimeUpdate_wins,
                  uptimeUpdate_losses]
                exact hInv
              exact resolve_pending_orders_inv inp.now e5 hI5

/-- C5: `total_trades = wins + losses` holds in the initial engine state
and is preserved by `start`, `stop`, `configure` and every successful
`run_cycle` (which includes the resolution of any number of orders). -/
theorem trades_invariant_preserved (pid now0 now1 now2 now3 : Nat) (cfg : BotConfig)
    (inp : CycleInput) (e e2 : TradingEngine) (d : List ActivityEntry)
    (hInv : tradesInv e) (hrc : run_cycle inp e = some (e2, d)) :
    tradesInv (TradingEngine.new pid now0) ∧
    tradesInv (start now1 e) ∧
    tradesInv (stop now2 e) ∧
    tradesInv (configure now3 e cfg) ∧
    tradesInv e2 :=
  ⟨rfl, hInv, hInv, hInv, run_cycle_trades_inv inp e e2 d hInv hrc⟩

theorem trades_invariant_preserved_witness :
    tradesInv (TradingEngine.new 0 0) ∧
    run_cycle inpTrivial (TradingEngine.new 0 0) = some (TradingEngine.new 0 0, []) ∧
    (tradesInv (TradingEngine.new 0 0) ∧ tradesInv (start 1 (TradingEngine.new 0 0)) ∧
      tradesInv (stop 2 (TradingEngine.new 0 0)) ∧
      tradesInv (configure 3 (TradingEngine.new 0 0) BotConfig.default) ∧
      tradesInv (TradingEngine.new 0 0)) :=
  ⟨rfl, by with_unfolding_all decide,
    trades_invariant_preserved 0 0 1 2 3 BotConfig.default inpTrivial
      (TradingEngine.new 0 0) (TradingEngine.new 0 0) [] rfl (by with_unfolding_all decide)⟩

/-- Division with an explicit zero-denominator check. -/
def divCheck (a b : ℚ) : Option ℚ :=
  if b = 0 then none else some (a / b)

/-- `update_stats` instrumented so every division the source executes is
checked: the result is `none` iff some executed division had a zero
denominator, otherwise exactly the stats `update_stats` computes. -/
def updateStatsChecked (e : TradingEngine) : Option BotStats := do
  let st : BotStats := e.stats
  let st : BotStats := { st with total_pnl := st.current_balance - st.initial_balance }
  let _pnl_pct : ℚ ←
    if st.initial_balance > 0 then (divCheck st.total_pnl st.initial_balance).map (· * 100)
    else some 0
  let pctVal : ℚ ← divCheck st.total_pnl 1000
  let st : BotStats := { st with total_pnl_pct :=
      (if st.total_pnl ≥ 0 then "+" else "") ++ "$" ++ fmtQ pctVal ++ "k" }
  let st : BotStats ←
    if st.total_trades > 0 then do
      let wr ← divCheck (st.wins : ℚ) (st.total_trades : ℚ)
      let total_bet : ℚ :=
        ((e.orders.filter fun o => o.status = OrderStatus.Resolved).map Order.size).sum
      let ab ← if st.total_trades > 0 then divCheck total_bet (st.total_trades : ℚ) else some 0
      pure { st with win_rate := wr * 100, avg_bet := ab }
    else pure st
  let st : BotStats ←
    if st.total_trades > 1 then do
      let returns := e.orders.filterMap Order.pnl
      let mean ← divCheck returns.sum (returns.length : ℚ)
      let variance ← divCheck ((returns.map fun r => (r - mean) ^ 2).sum) (returns.length : ℚ)
      let std_dev := ratSqrt variance
      let sr ← if std_dev > 0 then (divCheck mean std_dev).map (· * ratSqrt 252) else some 0
      pure { st with sharpe_ratio := sr }
    else pure st
  let st : BotStats ←
    if st.daily_api_cost > 0 then do
      let r ← divCheck st.current_balance st.daily_api_cost
      pure { st with runway_days := ratToU32 r }
    else pure { st with runway_days := 9999 }
  pure { st with daily_api_cost := st.api_costs }

/-- C8: with zero trades (and the win rate and Sharpe ratio at their
zero-trade value 0, as in every reachable zero-trade state), the
recomputation leaves both at 0 and executes no division by zero. -/
theorem zero_trades_no_division (e : TradingEngine)
    (h0 : e.stats.total_trades = 0) (hw : e.stats.win_rate = 0)
    (hs : BotStats.sharpe_ratio e.stats = 0) :
    (update_stats e).stats.win_rate = 0 ∧
    BotStats.sharpe_ratio (update_stats e).stats = 0 ∧
    updateStatsChecked e = some (update_stats e).stats := by
  refine ⟨?_, ?_, ?_⟩
  · simp only [update_stats, h0]
    repeat' split
    all_goals simp_all
  · simp only [update_stats, h0]
    repeat' split
    all_goals simp_all
  · have h1000 : ((1000 : ℚ)) ≠ 0 := by norm_num
    have hn0 : ¬ ((0 : Nat) > 0) := by omega
    have hn1 : ¬ ((0 : Nat) > 1) := by omega
    by_cases hbal : e.stats.initial_balance > 0
    · by_cases hdaily : e.stats.daily_api_cost > 0
      · simp [updateStatsChecked, update_stats, divCheck, h0, hbal, hdaily, hbal.ne',
          hdaily.ne', h1000, hn0, hn1]
      · simp [updateStatsChecked, update_stats, divCheck, h0, hbal, hdaily, hbal.ne',
          h1000, hn0, hn1]
    · by_cases hdaily : e.stats.daily_api_cost > 0
      · simp [updateStatsChecked, update_stats, divCheck, h0, hbal, hdaily, hdaily.ne',
          h1000, hn0, hn1]
      · simp [updateStatsChecked, update_stats, divCheck, h0, hbal, hdaily, h1000, hn0, hn1]

theorem zero_trades_no_division_witness :
    (TradingEngine.new 0 0).stats.total_trades = 0 ∧
    (TradingEngine.new 0 0).stats.win_rate = 0 ∧
    BotStats.sharpe_ratio (TradingEngine.new 0 0).stats = 0 ∧
    ((update_stats (TradingEngine.new 0 0)).stats.win_rate = 0 ∧
      BotStats.sharpe_ratio (update_stats (TradingEngine.new 0 0)).stats = 0 ∧
      updateStatsChecked (TradingEngine.new 0 0) =
        some (update_stats (TradingEngine.new 0 0)).stats) :=
  ⟨rfl, rfl, rfl, zero_trades_no_division _ rfl rfl rfl⟩

/-- The Resolved/Warning activity entry emitted when one filled order is
resolved (what `resolve_pending_orders` logs for that order). -/
def resolveEntry (now : Nat) (o : Order) (seed : ℚ) : ActivityEntry :=
  let seed2 := rustRem1 (seed * (11/10) + 3/10)
  let won := seed2 > 7/20
  let pnl := if won then o.size * (1 / o.price - 1) * (3/10) else -o.size * (7/10)
  mkEntry now ("RESOLVED " ++ (if pnl ≥ 0 then "+" else "") ++ "$" ++ fmtQ pnl)
    (if pnl ≥ 0 then ActivityType.Resolved else ActivityType.Warning)

theorem resolveLoop_log (now : Nat) (os : List Order) :
    ∀ (e : TradingEngine) (seed : ℚ),
      ∃ res : List ActivityEntry,
        (∀ a ∈ res, a.entry_type = ActivityType.Resolved ∨
          a.entry_type = ActivityType.Warning) ∧
        (resolveLoop now os e seed).2.1.activity_log =
          List.foldl (pushCapped 500) e.activity_log res := by
  induction os with
  | nil => intro e seed; exact ⟨[], by simp, rfl⟩
  | cons o rest ih =>
    intro e seed
    simp only [resolveLoop]
    split
    · obtain ⟨res, hty, hlog⟩ := ih _ _
      refine ⟨resolveEntry now o seed :: res, ?_, ?_⟩
      · intro a ha
        rcases List.mem_cons.mp ha with rfl | hmem
        · unfold resolveEntry mkEntry
          dsimp only
          repeat' split
          all_goals first
            | exact Or.inl rfl
            | exact Or.inr rfl
        · exact hty a hmem
      · rw [List.foldl_cons]
        exact hlog
    · obtain ⟨res, hty, hlog⟩ := ih _ _
      exact ⟨res, hty, hlog⟩

theorem step_cons {e : TradingEngine} {entry : ActivityEntry}
    {delta new : List ActivityEntry} {r : TradingEngine × List ActivityEntry}
    (h1 : r.2 = (delta ++ [entry]) ++ new)
    (h2 : r.1.activity_log =
      List.foldl (pushCapped 500) (pushCapped 500 e.activity_log entry) new) :
    ∃ nw : List ActivityEntry, r.2 = delta ++ nw ∧
      r.1.activity_log = List.foldl (pushCapped 500) e.activity_log nw :=
  ⟨entry :: new, by rw [h1]; simp, by rw [h2]; rfl⟩

theorem analyzeLoop_log_delta (inp : CycleInput) (ms : List Market) :
    ∀ (i : Nat) (e : TradingEngine) (delta : List ActivityEntry)
      (r : TradingEngine × List ActivityEntry), analyzeLoop inp ms i e delta = some r →
      ∃ new : List ActivityEntry, r.2 = delta ++ new ∧
        r.1.activity_log = List.foldl (pushCapped 500) e.activity_log new := by
  induction ms with
  | nil =>
    intro i e delta r h
    cases h
    exact ⟨[], by simp, rfl⟩
  | cons m rest ih =>
    intro i e delta r h
    simp only [analyzeLoop] at h
    split at h
    · exact ih _ _ _ _ h
    · split at h
      · split at h <;> rename_i hl
        · cases h
        · rw [addActivity_getLast?] at hl
          injection hl with hl
          subst hl
          obtain ⟨new, h1, h2⟩ := ih _ _ _ _ h
          exact step_cons h1 h2
      · split at h
        · split at h
          · cases h
          · split at h <;> rename_i hl
            · cases h
            · rw [addActivity_getLast?] at hl
              injection hl with hl
              subst hl
              split at h
              · split at h
                · cases h
                · split at h <;> rename_i hl2
                  · cases h
                  · rw [addActivity_getLast?] at hl2
                    injection hl2 with hl2
                    subst hl2
                    obtain ⟨new, h1, h2⟩ := ih _ _ _ _ h
                    obtain ⟨nw1, k1, k2⟩ := step_cons h1 h2
                    exact step_cons k1 k2
              · obtain ⟨new, h1, h2⟩ := ih _ _ _ _ h
                exact step_cons h1 h2
        · obtain ⟨new, h1, h2⟩ := ih _ _ _ _ h
          exact ⟨new, h1, h2⟩

theorem update_stats_log (e : TradingEngine) :
    (update_stats e).activity_log = e.activity_log := rfl

theorem resolve_pending_orders_log (now : Nat) (e : TradingEngine) :
    (resolve_pending_orders now e).activity_log =
      (resolveLoop now e.orders e ((e.stats.cycle : ℚ))).2.1.activity_log := rfl

/-- C1 amended: the post-cycle log is the pre-cycle log extended (with
the 500-cap) by exactly the delta entries in emission order, followed by
the Resolved/Warning entries of the order-resolution step — which are
appended to the log but NOT included in the returned delta. -/
theorem run_cycle_delta_vs_log (inp : CycleInput) (e e' : TradingEngine)
    (d : List ActivityEntry) (h : run_cycle inp e = some (e', d)) :
    ∃ res : List ActivityEntry,
      (∀ a ∈ res, a.entry_type = ActivityType.Resolved ∨
        a.entry_type = ActivityType.Warning) ∧
      e'.activity_log = List.foldl (pushCapped 500) e.activity_log (d ++ res) := by
  simp only [run_cycle, uptimeUpdate_polymarket] at h
  split at h
  · simp only [Option.some.injEq, Prod.mk.injEq] at h
    obtain ⟨h1, h2⟩ := h
    subst h1
    subst h2
    exact ⟨[], by simp, rfl⟩
  · split at h
    · simp only [Option.some.injEq, Prod.mk.injEq] at h
      obtain ⟨h1, h2⟩ := h
      subst h1
      subst h2
      refine ⟨[], by simp, ?_⟩
      simp only [uptimeUpdate_activity_log, List.append_nil, List.foldl_nil]
    · split at h <;> rename_i hlast
      · rw [addActivity_getLast?] at hlast
        cases hlast
      · rw [addActivity_getLast?] at hlast
        injection hlast with hlast
        subst hlast
        split at h
        · split at h <;> rename_i hlast2
          · rw [addActivity_getLast?] at hlast2
            cases hlast2
          · rw [addActivity_getLast?] at hlast2
            injection hlast2 with hlast2
            subst hlast2
            simp only [Option.some.injEq, Prod.mk.injEq] at h
            obtain ⟨h1, h2⟩ := h
            subst h1
            subst h2
            refine ⟨[], by simp, ?_⟩
            simp only [addActivity_log, uptimeUpdate_activity_log, List.append_nil,
              List.nil_append, List.singleton_append, List.foldl_cons, List.foldl_nil]
        · split at h <;> rename_i hlast2
          · rw [addActivity_getLast?] at hlast2
            cases hlast2
          · rw [addActivity_getLast?] at hlast2
            injection hlast2 with hlast2
            subst hlast2
            split at h
            · cases h
            · rename_i e5 d5 hloop
              simp only [Option.some.injEq, Prod.mk.injEq] at h
              obtain ⟨h1, h2⟩ := h
              subst h1
              subst h2
              obtain ⟨new, hd, hlog5⟩ := analyzeLoop_log_delta inp _ _ _ _ _ hloop
              dsimp only at hd hlog5
              obtain ⟨res, hty, hlogres⟩ :=
                resolveLoop_log inp.now e5.orders e5 ((e5.stats.cycle : ℚ))
              refine ⟨res, hty, ?_⟩
              rw [update_stats_log]
              show (resolve_pending_orders inp.now e5).activity_log = _
              rw [resolve_pending_orders_log, hlogres, hlog5, ← List.foldl_append, hd]
              simp only [addActivity_log, uptimeUpdate_activity_log, List.nil_append,
                List.append_assoc, List.foldl_append, List.foldl_cons, List.foldl_nil]

theorem run_cycle_delta_vs_log_witness :
    run_cycle inpTrivial (TradingEngine.new 0 0) = some (TradingEngine.new 0 0, []) ∧
    (∃ res : List ActivityEntry,
      (∀ a ∈ res, a.entry_type = ActivityType.Resolved ∨
        a.entry_type = ActivityType.Warning) ∧
      (TradingEngine.new 0 0).activity_log =
        List.foldl (pushCapped 500) (TradingEngine.new 0 0).activity_log ([] ++ res)) :=
  ⟨by with_unfolding_all decide,
    run_cycle_delta_vs_log inpTrivial (TradingEngine.new 0 0) (TradingEngine.new 0 0) []
      (by with_unfolding_all decide)⟩

def ordFilled : Order :=
  { id := "o1", market_id := "m1", market_name := "q", side := OrderSide.Buy,
    outcome := "Yes", price := 1/2, size := 10, status := OrderStatus.Filled,
    created_at := "", resolved_at := none, pnl := none }

/-- A running engine holding one filled order, with an empty log. -/
def engResolve : TradingEngine :=
  { TradingEngine.new 0 0 with
      is_running := true
      polymarket := some pcTest
      orders := [ordFilled] }

def inpEmptyOk : CycleInput :=
  { now := 0, fetch := Except.ok [], preds := fun _ => Except.error (),
    orderIds := fun _ => "" }

/-- C1 counterexample: starting from an empty log, a cycle that resolves
one filled order appends 3 entries to the log but returns a delta of
only 2 of them: one appended entry (the Resolved one) appears in the log
and not in the delta, so delta and log do not agree. -/
theorem run_cycle_delta_counterexample :
    engResolve.activity_log = [] ∧
    (run_cycle inpEmptyOk engResolve).map
        (fun r => (r.2.length, r.1.activity_log.length,
          (r.1.activity_log.filter fun a => decide (a ∈ r.2)).length,
          (r.1.activity_log.filter fun a =>
            a.entry_type = ActivityType.Resolved).length)) =
      some (2, 3, 2, 1) := by
  with_unfolding_all decide
